import Mathlib

/-!
Verification of the write-operation approval gate of the schwab-mcp server.

The development shallowly embeds the approval subsystem:

* `src/schwab_mcp/approvals/base.py` — `ApprovalDecision`, `ApprovalRequest`;
* `src/schwab_mcp/approvals/discord.py` — `DiscordApprovalSettings`, the
  coordinator state (`_pending` map plus the decision futures), the reaction
  handler `_handle_reaction_add` and the body of `require`;
* `src/schwab_mcp/tools/_registration.py` — the approval wrapper produced by
  `_wrap_with_approval`;
* `src/schwab_mcp/tools/__init__.py` — `register_tools` write gating.

Python `async` code is embedded as pure functions over an explicit coordinator
state.  Calls into external collaborators (Discord HTTP, progress sinks) are
recorded as an ordered effect list, and the outcomes of those calls (success /
`HTTPException`, reaction arriving / timeout) are inputs supplied by an
environment record, so each function is a faithful transcription of one
control-flow of the source with the I/O results made explicit.  A dedicated
small-step interleaving model (`RaceState` / `raceStep`) captures the one place
where two coroutines genuinely race: the reaction handler suspends at the
awaited `message.edit` between its `future.done()` check and its
`future.set_result`, while `asyncio.wait_for`'s timeout may fire at any
suspension point and cancel the future.
-/

/-- `ApprovalDecision` from `approvals/base.py`: APPROVED | DENIED | EXPIRED. -/
inductive ApprovalDecision where
  | APPROVED
  | DENIED
  | EXPIRED
deriving DecidableEq, Repr

/-- `ApprovalRequest` from `approvals/base.py`: frozen dataclass describing one
write-tool invocation.  `arguments` is the ordered mapping of parameter name to
rendered string. -/
structure ApprovalRequest where
  id : String
  tool_name : String
  request_id : String
  client_id : Option String
  arguments : List (String × String)
deriving DecidableEq, Repr

/-- `NoOpApprovalManager.require` from `approvals/base.py`: always APPROVED. -/
def noOpRequire (_ : ApprovalRequest) : ApprovalDecision :=
  ApprovalDecision.APPROVED

/-- Python exceptions that cross the boundaries the claims talk about. -/
inductive PyError where
  | httpError (msg : String)
  | runtimeError (msg : String)
  | valueError (msg : String)
  | typeError (msg : String)
  | permissionError (msg : String)
  | timeoutError (msg : String)
deriving DecidableEq, Repr

/-- Association-list lookup, modelling Python `dict.get`. -/
def alistFind {α : Type} (k : Nat) : List (Nat × α) → Option α
  | [] => none
  | (k', v) :: rest => if k' = k then some v else alistFind k rest

/-- Association-list insert, modelling Python `dict[k] = v`. -/
def alistInsert {α : Type} (k : Nat) (v : α) (l : List (Nat × α)) :
    List (Nat × α) :=
  (k, v) :: alistErase k l
where
  /-- Association-list removal, modelling Python `dict.pop(k, None)`:
  total, and a no-op when the key is absent. -/
  alistErase (k : Nat) : List (Nat × α) → List (Nat × α)
    | [] => []
    | (k', v) :: rest =>
        if k' = k then alistErase k rest else (k', v) :: alistErase k rest

/-- `dict.pop(k, None)` as a standalone name. -/
def alistErase {α : Type} (k : Nat) (l : List (Nat × α)) : List (Nat × α) :=
  alistInsert.alistErase k l

theorem alistFind_erase {α : Type} (k : Nat) (l : List (Nat × α)) :
    alistFind k (alistErase k l) = none := by
  induction l with
  | nil => rfl
  | cons hd tl ih =>
      obtain ⟨k', v⟩ := hd
      by_cases h : k' = k
      · simpa [alistErase, alistInsert.alistErase, h] using ih
      · simpa [alistErase, alistInsert.alistErase, h, alistFind] using ih

theorem alistErase_idem {α : Type} (k : Nat) (l : List (Nat × α)) :
    alistErase k (alistErase k l) = alistErase k l := by
  induction l with
  | nil => rfl
  | cons hd tl ih =>
      obtain ⟨k', v⟩ := hd
      by_cases h : k' = k
      · simpa [alistErase, alistInsert.alistErase, h] using ih
      · simpa [alistErase, alistInsert.alistErase, h] using ih

/-- `DiscordApprovalSettings` from `approvals/discord.py`.  The source stores
`timeout_seconds` as a Python float defaulting to `600.0`; every use the claims
mention (the `wait_for` bound and the `int(...)` rendered into the expiry note)
goes through a whole number of seconds, so it is embedded as `Nat`. -/
structure DiscordApprovalSettings where
  token : String
  channel_id : Nat
  approver_ids : List Nat
  timeout_seconds : Nat
deriving DecidableEq, Repr

/-- Default of `DiscordApprovalSettings.timeout_seconds` (`600.0` seconds). -/
def defaultTimeoutSeconds : Nat := 600

/-- `DiscordApprovalManager.__init__`: raises `ValueError` when constructed
with zero approver ids, otherwise yields a manager with the given settings. -/
def managerInit (s : DiscordApprovalSettings) :
    Except PyError DiscordApprovalSettings :=
  if s.approver_ids = [] then
    Except.error (PyError.valueError
      "DiscordApprovalManager requires at least one approver ID.")
  else
    Except.ok s

/-- The state of one `asyncio.Future[ApprovalDecision]`: unresolved, resolved
via `set_result`, or cancelled (what `asyncio.wait_for` does on timeout).
`done()` is true for the last two. -/
inductive FutureState where
  | unresolved
  | resolved (d : ApprovalDecision)
  | cancelled
deriving DecidableEq, Repr

/-- `asyncio.Future.done()`. -/
def FutureState.done : FutureState → Bool
  | .unresolved => false
  | .resolved _ => true
  | .cancelled => true

/-- `_PendingApproval` from `approvals/discord.py`: the request, a reference to
its decision future (here: a key into the futures map), and the posted prompt
message (here: its id). -/
structure PendingApproval where
  request : ApprovalRequest
  futureId : Nat
  messageId : Nat
deriving DecidableEq, Repr

/-- The coordinator-owned mutable state of `DiscordApprovalManager`:
`self._pending` keyed by message id, plus the heap of decision futures (shared
by reference between a `_PendingApproval` entry and the `require` coroutine
that created it). -/
structure CoordState where
  pending : List (Nat × PendingApproval)
  futures : List (Nat × FutureState)
deriving DecidableEq, Repr

/-- A `on_reaction_add` event as the handler sees it: the reacted-to message,
its channel, the reacting user (with the `user.bot` flag) and the emoji. -/
structure ReactionEvent where
  messageId : Nat
  channelId : Nat
  userId : Nat
  userIsBot : Bool
  emoji : String
deriving DecidableEq, Repr

/-- The calls `require` and `_handle_reaction_add` make into Discord, and the
coordinator-state transitions they perform, in program order. -/
inductive Effect where
  | sendMessage (messageId : Nat)
  | addReaction (messageId : Nat) (emoji : String)
  | registerPending (messageId : Nat)
  | awaitDecision (messageId : Nat)
  | finalizeEdit (messageId : Nat) (decision : ApprovalDecision)
      (reason : Option String)
  | removeReaction (messageId : Nat) (userId : Nat)
  | logRemoveFailure (userId : Nat)
deriving DecidableEq, Repr

/-- Whether an effect is an edit of the prompt message
(`_finalize_message`). -/
def Effect.isFinalize : Effect → Bool
  | .finalizeEdit _ _ _ => true
  | _ => false

/-- `DiscordApprovalManager._handle_reaction_add`, transcribed guard by guard:
ignore the bot's own reactions; ignore other channels; look the message up in
`self._pending` (no entry: return); ignore emojis other than the two decision
affordances; for a reactor outside `approver_ids` remove the reaction
best-effort (`removeOk` tells whether `reaction.remove` raised
`discord.HTTPException`; the failure is logged, never re-raised) and return;
compute the decision from the emoji; if the future is already done, return;
otherwise finalize the prompt message and resolve the future.  Returns the new
coordinator state and the effects in program order. -/
def handleReactionAdd (s : DiscordApprovalSettings) (st : CoordState)
    (ev : ReactionEvent) (removeOk : Bool) : CoordState × List Effect :=
  if ev.userIsBot then (st, [])
  else if ev.channelId ≠ s.channel_id then (st, [])
  else
    match alistFind ev.messageId st.pending with
    | none => (st, [])
    | some p =>
        if ev.emoji = "✅" ∨ ev.emoji = "❌" then
          if s.approver_ids ≠ [] ∧ ev.userId ∉ s.approver_ids then
            (st,
              if removeOk then
                [Effect.removeReaction ev.messageId ev.userId]
              else
                [Effect.removeReaction ev.messageId ev.userId,
                 Effect.logRemoveFailure ev.userId])
          else
            let decision :=
              if ev.emoji = "✅" then ApprovalDecision.APPROVED
              else ApprovalDecision.DENIED
            match alistFind p.futureId st.futures with
            | some FutureState.unresolved =>
                ({ st with
                    futures :=
                      alistInsert p.futureId (FutureState.resolved decision)
                        st.futures },
                  [Effect.finalizeEdit ev.messageId decision
                    (some ("Decision recorded via " ++ ev.emoji))])
            | _ => (st, [])
        else (st, [])

/-- What happens while `require` awaits its future inside `asyncio.wait_for`:
either the reaction handler resolved the future with a decision, or the
timeout fired (cancelling the future and raising `asyncio.TimeoutError`). -/
inductive AwaitOutcome where
  | resolvedBy (d : ApprovalDecision)
  | timeout
deriving DecidableEq, Repr

/-- The externally determined outcomes of the calls `require` makes: whether
`_ensure_channel` resolves a messageable channel, whether `channel.send`
succeeds, the posted message's id, the id of the freshly created future,
whether each of the two `message.add_reaction` calls succeeds, and what
happens during the await. -/
structure RequireEnv where
  channelOk : Bool
  sendOk : Bool
  messageId : Nat
  futureId : Nat
  addApproveOk : Bool
  addDenyOk : Bool
  outcome : AwaitOutcome
deriving DecidableEq, Repr

/-- The note `require` renders into the expiry finalization:
`f"No decision within {int(self._settings.timeout_seconds)}s timeout."`. -/
def timeoutReason (s : DiscordApprovalSettings) : String :=
  "No decision within " ++ toString s.timeout_seconds ++ "s timeout."

/-- `DiscordApprovalManager.require`, transcribed: resolve the channel (an
unresolvable channel raises `RuntimeError`); post the prompt (`channel.send`
failures propagate); attach the two decision reactions — if either raises
`discord.HTTPException`, finalize the prompt with DENIED and return DENIED at
once, with no pending entry registered and no await; otherwise create a fresh
unresolved future, register the `_PendingApproval` under the message id, and
await the future under `asyncio.wait_for(timeout_seconds)`.  On timeout the
decision is EXPIRED, the future is cancelled and the prompt is finalized with
the timeout note; on resolution the handler's decision is returned (the
handler already finalized the prompt).  Either way the `finally` block pops
the message id from the pending map before returning. -/
def require (s : DiscordApprovalSettings) (st : CoordState)
    (req : ApprovalRequest) (env : RequireEnv) :
    CoordState × Except PyError ApprovalDecision × List Effect :=
  if ¬ env.channelOk then
    (st, Except.error (PyError.runtimeError
      "Configured Discord channel is not messageable"), [])
  else if ¬ env.sendOk then
    (st, Except.error (PyError.httpError "channel.send failed"),
      [Effect.sendMessage env.messageId])
  else if ¬ env.addApproveOk then
    (st, Except.ok ApprovalDecision.DENIED,
      [Effect.sendMessage env.messageId,
       Effect.addReaction env.messageId "✅",
       Effect.finalizeEdit env.messageId ApprovalDecision.DENIED
         (some "Failed to add reactions.")])
  else if ¬ env.addDenyOk then
    (st, Except.ok ApprovalDecision.DENIED,
      [Effect.sendMessage env.messageId,
       Effect.addReaction env.messageId "✅",
       Effect.addReaction env.messageId "❌",
       Effect.finalizeEdit env.messageId ApprovalDecision.DENIED
         (some "Failed to add reactions.")])
  else
    let p : PendingApproval :=
      { request := req, futureId := env.futureId, messageId := env.messageId }
    let registered : CoordState :=
      { pending := alistInsert env.messageId p st.pending,
        futures := alistInsert env.futureId FutureState.unresolved st.futures }
    let preEffects : List Effect :=
      [Effect.sendMessage env.messageId,
       Effect.addReaction env.messageId "✅",
       Effect.addReaction env.messageId "❌",
       Effect.registerPending env.messageId,
       Effect.awaitDecision env.messageId]
    match env.outcome with
    | AwaitOutcome.resolvedBy d =>
        ({ pending := alistErase env.messageId registered.pending,
           futures :=
             alistInsert env.futureId (FutureState.resolved d)
               registered.futures },
          Except.ok d, preEffects)
    | AwaitOutcome.timeout =>
        ({ pending := alistErase env.messageId registered.pending,
           futures :=
             alistInsert env.futureId FutureState.cancelled
               registered.futures },
          Except.ok ApprovalDecision.EXPIRED,
          preEffects ++
            [Effect.finalizeEdit env.messageId ApprovalDecision.EXPIRED
              (some (timeoutReason s))])

/-!
Interleaving model for the resolution race (claim C6).

After a `_PendingApproval` is registered, several coroutines can try to
resolve it concurrently: discord.py dispatches every `on_reaction_add` event
as its own task, so one `_handle_reaction_add` task runs per delivered
reaction, alongside the `require` coroutine's `asyncio.wait_for`.  Each
handler task's only suspension point between its `future.done()` check and
its `future.set_result` is the awaited `message.edit` inside
`_finalize_message` — and both the check and the edit sit outside
`self._lock` (the lock guards only the map lookup); `wait_for`'s timeout
callback can run at any suspension point, cancels the future at once, and
`require` then runs its `except` branch (one more `_finalize_message` edit)
and pops the pending entry.  The model therefore keeps a list of handler
tasks, one per delivered authorized decision reaction on the prompt message
(`approve` tells whether the reaction was ✅ or ❌), splits each task into
two atomic segments around its edit, and treats the timeout and the waiter's
wake-up as atomic events; an event whose guard does not hold is a no-op (the
scheduler cannot run a coroutine that is not runnable).
-/

/-- One dispatched `_handle_reaction_add` task for an authorized decision
reaction on the prompt message.  `pc`: 0 = dispatched but not yet run, 1 =
the task passed the `done()` check and its finalize edit is in flight, 2 =
the task returned.  `edited` records that it dispatched its edit; `errored`
records its `set_result` raising `InvalidStateError` on a done future. -/
structure HandlerTask where
  approve : Bool
  pc : Nat
  edited : Bool
  errored : Bool
deriving DecidableEq, Repr

/-- The decision the handler maps the reaction emoji to (✅ approves, ❌
denies; the emoji guard admits nothing else, so EXPIRED is impossible
here). -/
def HandlerTask.decision (h : HandlerTask) : ApprovalDecision :=
  if h.approve then ApprovalDecision.APPROVED else ApprovalDecision.DENIED

/-- Scheduler events of the resolution race: the check and resume segments
of the i-th handler task, the timeout, and the waiter's wake-up. -/
inductive RaceEvent where
  | handlerCheck (i : Nat)
  | handlerResume (i : Nat)
  | timeoutFire
  | waiterWake
deriving DecidableEq, Repr

/-- Joint state of the racing coroutines for one request: the decision
future, the dispatched handler tasks, the pending-map entry, the waiter, and
the log of `message.edit` attempts on the prompt message. -/
structure RaceState where
  future : FutureState
  handlers : List HandlerTask
  pendingPresent : Bool
  waiterDone : Bool
  waiterResult : Option ApprovalDecision
  edits : List ApprovalDecision
deriving DecidableEq, Repr

/-- Immediately after `require` registers the pending entry: future
unresolved, one not-yet-run handler task per delivered authorized decision
reaction, waiter awaiting. -/
def raceInit (flags : List Bool) : RaceState :=
  { future := FutureState.unresolved,
    handlers := flags.map (fun a =>
      { approve := a, pc := 0, edited := false, errored := false }),
    pendingPresent := true, waiterDone := false, waiterResult := none,
    edits := [] }

/-- One scheduler step.  `handlerCheck i`: task i runs from dispatch up to
and including the `done()` check — with no pending entry or a done future it
returns, otherwise it dispatches its finalize edit and suspends.
`handlerResume i`: task i resumes after its edit and calls `set_result`,
which succeeds only on a still-unresolved future (on a done future it raises
`InvalidStateError`).  `timeoutFire`: `wait_for` cancels the unresolved
future; `require`'s except branch edits the message with EXPIRED and the
finally block pops the entry.  `waiterWake`: `wait_for` returns the resolved
decision; the finally block pops the entry. -/
def raceStep (st : RaceState) (e : RaceEvent) : RaceState :=
  match e with
  | RaceEvent.handlerCheck i =>
      match st.handlers[i]? with
      | none => st
      | some h =>
          if h.pc = 0 then
            if ¬ st.pendingPresent then
              { st with handlers := st.handlers.set i { h with pc := 2 } }
            else if st.future.done then
              { st with handlers := st.handlers.set i { h with pc := 2 } }
            else
              { st with
                  handlers :=
                    st.handlers.set i { h with pc := 1, edited := true }
                  edits := st.edits ++ [h.decision] }
          else st
  | RaceEvent.handlerResume i =>
      match st.handlers[i]? with
      | none => st
      | some h =>
          if h.pc = 1 then
            match st.future with
            | FutureState.unresolved =>
                { st with
                    handlers := st.handlers.set i { h with pc := 2 }
                    future := FutureState.resolved h.decision }
            | _ =>
                { st with
                    handlers :=
                      st.handlers.set i { h with pc := 2, errored := true } }
          else st
  | RaceEvent.timeoutFire =>
      if st.waiterDone = false ∧ st.future = FutureState.unresolved then
        { st with
            future := FutureState.cancelled
            waiterDone := true
            waiterResult := some ApprovalDecision.EXPIRED
            pendingPresent := false
            edits := st.edits ++ [ApprovalDecision.EXPIRED] }
      else st
  | RaceEvent.waiterWake =>
      if st.waiterDone = false then
        match st.future with
        | FutureState.resolved d =>
            { st with
                waiterDone := true
                waiterResult := some d
                pendingPresent := false }
        | _ => st
      else st

/-- Run a schedule from the registered state with the given delivered
reactions. -/
def raceRun (flags : List Bool) (evs : List RaceEvent) : RaceState :=
  evs.foldl raceStep (raceInit flags)

/-- A complete run: every dispatched handler task returned and `require`
returned. -/
def raceComplete (st : RaceState) : Prop :=
  (∀ h ∈ st.handlers, h.pc = 2) ∧ st.waiterDone = true

instance (st : RaceState) : Decidable (raceComplete st) := by
  unfold raceComplete
  infer_instance

/-- Handler tasks that have dispatched their finalize edit. -/
def countEdited (st : RaceState) : Nat :=
  st.handlers.countP (fun h => h.edited)

/-- Handler tasks whose finalize edit is in flight (past the `done()` check,
before `set_result`). -/
def countInFlight (st : RaceState) : Nat :=
  st.handlers.countP (fun h => h.pc == 1)

/-!
The approval wrapper of `tools/_registration.py`.
-/

/-- What the wrapper reads off the resolved `SchwabContext`: the protocol
correlation id, the optional caller identity, and whether the invocation
carries a progress token (`_has_progress_token`). -/
structure CtxInfo where
  request_id : String
  client_id : Option String
  hasProgressToken : Bool
deriving DecidableEq, Repr

/-- A Python value bound to one parameter of the wrapped tool, as the
wrapper's `isinstance` checks classify it: a `SchwabContext`, a plain MCP
`Context` (convertible), or anything else (`plain r` carries the value's
`repr`). -/
inductive PyValue where
  | schwabCtx (c : CtxInfo)
  | mcpCtx (c : CtxInfo)
  | plain (r : String)
deriving DecidableEq, Repr

/-- `repr(value)` as the wrapper's argument rendering sees it. -/
def PyValue.reprStr : PyValue → String
  | .schwabCtx _ => "<SchwabContext>"
  | .mcpCtx _ => "<Context>"
  | .plain r => r

/-- String-keyed association lookup (Python `bound.arguments[name]`). -/
def alistFindS {α : Type} (k : String) : List (String × α) → Option α
  | [] => none
  | (k', v) :: rest => if k' = k then some v else alistFindS k rest

/-- `_format_argument`: `repr`, truncated to 256 with an ellipsis marker. -/
def formatArgument (r : String) : String :=
  if r.length > 256 then r.take 253 ++ "..." else r

/-- The context-resolution loop at the top of `_wrap_with_approval`'s
wrapper: walk `ctx_params` in order; a missing argument is skipped, a
`SchwabContext` or MCP `Context` value becomes the resolved context (a later
context parameter overwrites an earlier one), and a value of any other type is
silently skipped — the loop raises nothing. -/
def resolveContext (ctxParams : List String)
    (bound : List (String × PyValue)) : Option CtxInfo :=
  ctxParams.foldl
    (fun acc name =>
      match alistFindS name bound with
      | none => acc
      | some (PyValue.schwabCtx c) => some c
      | some (PyValue.mcpCtx c) => some c
      | some (PyValue.plain _) => acc)
    none

/-- The in-place conversion the loop performs on `bound.arguments`: an MCP
`Context` bound to a context parameter is replaced by the converted
`SchwabContext`; everything else is left as passed. -/
def convertBound (ctxParams : List String)
    (bound : List (String × PyValue)) : List (String × PyValue) :=
  bound.map (fun p =>
    if p.1 ∈ ctxParams then
      match p.2 with
      | PyValue.mcpCtx c => (p.1, PyValue.schwabCtx c)
      | v => (p.1, v)
    else p)

/-- The denial message of the wrapper. -/
def deniedMessage (toolName : String) : String :=
  "Write operation for tool '" ++ toolName ++ "' denied by reviewer."

/-- The expiry message of the wrapper. -/
def expiredMessage (toolName : String) : String :=
  "Approval request for tool '" ++ toolName ++ "' expired."

/-- `_report_approval_completion`'s message. -/
def completionMessage (d : ApprovalDecision) : String :=
  if d = ApprovalDecision.APPROVED then "Reviewer approved the request."
  else "Approval flow finished without approval."

/-- The caller-visible calls the wrapper makes, in program order. -/
inductive WEffect where
  | reportProgress (current total : Nat) (message : String)
  | startKeepalive
  | cancelKeepalive
  | requireCalled (req : ApprovalRequest)
  | logDecision (d : ApprovalDecision)
  | warning (msg : String)
  | callWrapped (args : List (String × PyValue))
deriving DecidableEq, Repr

/-- Whether the wrapper reached `context.approvals.require`. -/
def WEffect.isRequire : WEffect → Bool
  | .requireCalled _ => true
  | _ => false

/-- The externally determined inputs of one wrapper invocation: the
`uuid.uuid4()` approval id, the decision `ApprovalManager.require` returns,
and the wrapped function's result. -/
structure WrapperEnv where
  approvalId : String
  decision : ApprovalDecision
  callResult : String
deriving DecidableEq, Repr

/-- `_wrap_with_approval` raises `TypeError` at wrap time when the wrapped
function's signature has no `SchwabContext`-annotated parameter. -/
def wrapWithApproval (toolName : String) (ctxParams : List String) :
    Except PyError Unit :=
  if ctxParams = [] then
    Except.error (PyError.typeError
      ("Write tool '" ++ toolName ++
        "' must accept a SchwabContext parameter for approval gating."))
  else
    Except.ok ()

/-- One invocation of the wrapper `_wrap_with_approval` builds, transcribed:
bind the arguments; run the context-resolution loop; with no resolved context
raise `RuntimeError` (before any approval work — no request is built, no
progress is sent, `require` is not called).  Otherwise render every
non-context argument, build the `ApprovalRequest`, send the initial progress
update and start the keep-alive when a progress token is present, call
`require`, always cancel the keep-alive, report completion, log the decision,
then branch: APPROVED calls the wrapped function with the bound (context-
converted) arguments and returns its result; DENIED sends a caller-visible
warning and raises `PermissionError`; EXPIRED sends the warning and raises
`TimeoutError`. -/
def wrapperCall (toolName : String) (ctxParams : List String)
    (bound : List (String × PyValue)) (env : WrapperEnv) :
    Except PyError String × List WEffect :=
  match resolveContext ctxParams bound with
  | none =>
      (Except.error (PyError.runtimeError
        ("Write tool '" ++ toolName ++
          "' missing SchwabContext during invocation.")), [])
  | some ctx =>
      let args :=
        (bound.filter (fun p => p.1 ∉ ctxParams)).map
          (fun p => (p.1, formatArgument p.2.reprStr))
      let req : ApprovalRequest :=
        { id := env.approvalId, tool_name := toolName,
          request_id := ctx.request_id, client_id := ctx.client_id,
          arguments := args }
      let progressPre : List WEffect :=
        if ctx.hasProgressToken then
          [WEffect.reportProgress 0 1 "Waiting for reviewer approval…",
           WEffect.startKeepalive]
        else []
      let progressPost : List WEffect :=
        if ctx.hasProgressToken then
          [WEffect.cancelKeepalive,
           WEffect.reportProgress 1 1 (completionMessage env.decision)]
        else []
      let pre : List WEffect :=
        progressPre ++ [WEffect.requireCalled req] ++ progressPost ++
          [WEffect.logDecision env.decision]
      match env.decision with
      | ApprovalDecision.APPROVED =>
          (Except.ok env.callResult,
            pre ++ [WEffect.callWrapped (convertBound ctxParams bound)])
      | ApprovalDecision.DENIED =>
          (Except.error (PyError.permissionError (deniedMessage toolName)),
            pre ++ [WEffect.warning (deniedMessage toolName)])
      | ApprovalDecision.EXPIRED =>
          (Except.error (PyError.timeoutError (expiredMessage toolName)),
            pre ++ [WEffect.warning (expiredMessage toolName)])

/-!
The registry write gating of `tools/__init__.py`.
-/

/-- A registered tool callable as `register_tools` sees it: its name and its
`_write` attribute (`getattr(func, "_write", False)`). -/
structure ToolDef where
  name : String
  write : Bool
deriving DecidableEq, Repr

/-- Which `ApprovalManager` the server is configured with. -/
inductive ApprovalManagerKind where
  | noOp
  | discordManager (s : DiscordApprovalSettings)
deriving DecidableEq, Repr

/-- The server configuration surrounding registration: the configured
approval manager (held in the lifespan context) and the `allow_write` flag. -/
structure ServerConfig where
  approval_manager : ApprovalManagerKind
  allow_write : Bool
deriving DecidableEq, Repr

/-- `register_tools` from `tools/__init__.py`: every registered tool whose
`_write` attribute is set is skipped (`continue`) when `allow_write` is
false; the rest are bound and exposed.  The function never consults the
configured approval manager. -/
def registerTools (cfg : ServerConfig) (tools : List ToolDef) : List ToolDef :=
  tools.filter (fun t => ¬ (t.write = true ∧ cfg.allow_write = false))

/-!
Helper lemmas about the association-list operations.
-/

theorem alistFind_insert_self {α : Type} (k : Nat) (v : α)
    (l : List (Nat × α)) : alistFind k (alistInsert k v l) = some v := by
  simp [alistInsert, alistFind]

theorem alistFind_erase_ne {α : Type} {k k' : Nat} (h : k' ≠ k)
    (l : List (Nat × α)) : alistFind k' (alistErase k l) = alistFind k' l := by
  induction l with
  | nil => rfl
  | cons hd tl ih =>
      obtain ⟨k0, v⟩ := hd
      simp only [alistErase, alistInsert.alistErase] at ih ⊢
      by_cases h0 : k0 = k
      · have hk : ¬ k0 = k' := by omega
        rw [if_pos h0, ih]
        simp [alistFind, hk]
      · rw [if_neg h0]
        by_cases h1 : k0 = k'
        · simp [alistFind, h1]
        · simp [alistFind, h1, ih]

theorem alistFind_insert_ne {α : Type} {k k' : Nat} (h : k' ≠ k) (v : α)
    (l : List (Nat × α)) : alistFind k' (alistInsert k v l) = alistFind k' l := by
  have hk : ¬ k = k' := fun hc => h hc.symm
  simp [alistInsert, alistFind, hk]
  exact alistFind_erase_ne h l

/-- C1: the pending decision future is resolved at most once.  First part: a
future that is already resolved is never overwritten by the reaction handler
(whatever event arrives).  Second part: a reaction event processed when the
pending entry's future is already done is a no-op — the handler leaves the
coordinator state unchanged and edits no message, because it checks
`future.done()` before `set_result`. -/
theorem C1_future_resolved_at_most_once (s : DiscordApprovalSettings)
    (st : CoordState) (ev : ReactionEvent) (removeOk : Bool) :
    (∀ fid d, alistFind fid st.futures = some (FutureState.resolved d) →
      alistFind fid ((handleReactionAdd s st ev removeOk).1).futures =
        some (FutureState.resolved d)) ∧
    (∀ p fs, alistFind ev.messageId st.pending = some p →
      alistFind p.futureId st.futures = some fs → fs.done = true →
      (handleReactionAdd s st ev removeOk).1 = st ∧
        ∀ e ∈ (handleReactionAdd s st ev removeOk).2, e.isFinalize = false) := by
  constructor
  · intro fid d hfid
    by_cases hbot : ev.userIsBot
    · simp [handleReactionAdd, hbot, hfid]
    · by_cases hch : ev.channelId = s.channel_id
      · rcases hpend : alistFind ev.messageId st.pending with _ | p
        · simp [handleReactionAdd, hbot, hch, hpend, hfid]
        · by_cases hem : ev.emoji = "✅" ∨ ev.emoji = "❌"
          · by_cases hauth : s.approver_ids ≠ [] ∧ ev.userId ∉ s.approver_ids
            · simp [handleReactionAdd, hbot, hch, hpend, hem, hauth, hfid]
            · rcases hfs : alistFind p.futureId st.futures with _ | fs2
              · simp [handleReactionAdd, hbot, hch, hpend, hem, hauth, hfs,
                  hfid]
              · cases fs2 with
                | unresolved =>
                    by_cases hsame : fid = p.futureId
                    · rw [hsame] at hfid
                      rw [hfid] at hfs
                      simp at hfs
                    · simp [handleReactionAdd, hbot, hch, hpend, hem, hauth,
                        hfs, alistFind_insert_ne hsame, hfid]
                | resolved d2 =>
                    simp [handleReactionAdd, hbot, hch, hpend, hem, hauth,
                      hfs, hfid]
                | cancelled =>
                    simp [handleReactionAdd, hbot, hch, hpend, hem, hauth,
                      hfs, hfid]
          · simp [handleReactionAdd, hbot, hch, hpend, hem, hfid]
      · simp [handleReactionAdd, hbot, hch, hfid]
  · intro p fs hp hf hdone
    by_cases hbot : ev.userIsBot
    · simp [handleReactionAdd, hbot]
    · by_cases hch : ev.channelId = s.channel_id
      · by_cases hem : ev.emoji = "✅" ∨ ev.emoji = "❌"
        · by_cases hauth : s.approver_ids ≠ [] ∧ ev.userId ∉ s.approver_ids
          · rcases removeOk <;>
              simp [handleReactionAdd, hbot, hch, hp, hem, hauth,
                Effect.isFinalize]
          · cases fs with
            | unresolved => simp [FutureState.done] at hdone
            | resolved d =>
                simp [handleReactionAdd, hbot, hch, hp, hem, hauth, hf]
            | cancelled =>
                simp [handleReactionAdd, hbot, hch, hp, hem, hauth, hf]
        · simp [handleReactionAdd, hbot, hch, hp, hem]
      · simp [handleReactionAdd, hbot, hch]

/-- C3: a reaction from a user outside the configured `approver_ids` (the
constructor guarantees the set is non-empty, hypothesis `hne`) leaves the
coordinator unchanged: the pending map and every future keep their values,
and the only effects possibly emitted are the best-effort reaction removal
and, when that removal fails, its log line — for either value of `removeOk`,
so a removal failure never escapes the handler.  In particular the outcome of
`require` cannot depend on unauthorized reactions. -/
theorem C3_unauthorized_reaction_noop (s : DiscordApprovalSettings)
    (st : CoordState) (ev : ReactionEvent) (removeOk : Bool)
    (hne : s.approver_ids ≠ []) (hu : ev.userId ∉ s.approver_ids) :
    (handleReactionAdd s st ev removeOk).1 = st ∧
      ∀ e ∈ (handleReactionAdd s st ev removeOk).2,
        e = Effect.removeReaction ev.messageId ev.userId ∨
          e = Effect.logRemoveFailure ev.userId := by
  by_cases hbot : ev.userIsBot
  · simp [handleReactionAdd, hbot]
  · by_cases hch : ev.channelId = s.channel_id
    · rcases hpend : alistFind ev.messageId st.pending with _ | p
      · simp [handleReactionAdd, hbot, hch, hpend]
      · by_cases hem : ev.emoji = "✅" ∨ ev.emoji = "❌"
        · rcases removeOk <;>
            simp [handleReactionAdd, hbot, hch, hpend, hem, hne, hu]
        · simp [handleReactionAdd, hbot, hch, hpend, hem]
    · simp [handleReactionAdd, hbot, hch]

/-- C10: the pending entry exists only inside the registration window.
Part 1: a reaction event whose message id is not a key of the pending map
(not yet registered, or already cleaned up) changes no coordinator state and
emits no effect, so a decision arriving in that window cannot resolve the
request.  Part 2: when attaching a reaction fails, `require` registers
nothing (state unchanged, no registration effect).  Part 3: on the successful
path the registration effect comes only after the message post and both
reaction attachments, in program order. -/
theorem C10_registration_window (s : DiscordApprovalSettings)
    (st : CoordState) (ev : ReactionEvent) (removeOk : Bool)
    (req : ApprovalRequest) (env : RequireEnv) :
    (alistFind ev.messageId st.pending = none →
      handleReactionAdd s st ev removeOk = (st, [])) ∧
    (env.channelOk = true → env.sendOk = true →
      (env.addApproveOk = false ∨ env.addDenyOk = false) →
      (require s st req env).1 = st ∧
        Effect.registerPending env.messageId ∉ (require s st req env).2.2) ∧
    (env.channelOk = true → env.sendOk = true → env.addApproveOk = true →
      env.addDenyOk = true →
      ∃ rest, (require s st req env).2.2 =
        Effect.sendMessage env.messageId ::
          Effect.addReaction env.messageId "✅" ::
            Effect.addReaction env.messageId "❌" ::
              Effect.registerPending env.messageId :: rest) := by
  refine ⟨?_, ?_, ?_⟩
  · intro hpend
    by_cases hbot : ev.userIsBot
    · simp [handleReactionAdd, hbot]
    · by_cases hch : ev.channelId = s.channel_id
      · simp [handleReactionAdd, hbot, hch, hpend]
      · simp [handleReactionAdd, hbot, hch]
  · intro hchan hsend hfail
    by_cases ha : env.addApproveOk = true
    · have hd : env.addDenyOk = false := by
        rcases hfail with h | h
        · rw [ha] at h
          cases h
        · exact h
      simp [require, hchan, hsend, ha, hd]
    · have ha' : env.addApproveOk = false := by
        simpa using ha
      simp [require, hchan, hsend, ha']
  · intro hchan hsend ha hd
    rcases hout : env.outcome with d | _
    · exact ⟨[Effect.awaitDecision env.messageId],
        by simp [require, hchan, hsend, ha, hd, hout]⟩
    · exact ⟨[Effect.awaitDecision env.messageId,
          Effect.finalizeEdit env.messageId ApprovalDecision.EXPIRED
            (some (timeoutReason s))],
        by simp [require, hchan, hsend, ha, hd, hout]⟩

/-- C2: when either `message.add_reaction` call raises
`discord.HTTPException`, `require` finalizes the prompt with the DENIED
outcome and returns DENIED immediately: the coordinator state is unchanged
(no pending entry was registered) and the effect trace shows the DENIED
finalization but neither a registration nor the `asyncio.wait_for` await, so
no timeout wait occurs. -/
theorem C2_fail_closed_on_reaction_failure (s : DiscordApprovalSettings)
    (st : CoordState) (req : ApprovalRequest) (env : RequireEnv)
    (hchan : env.channelOk = true) (hsend : env.sendOk = true)
    (hfail : env.addApproveOk = false ∨ env.addDenyOk = false) :
    (require s st req env).2.1 = Except.ok ApprovalDecision.DENIED ∧
    (require s st req env).1 = st ∧
    Effect.finalizeEdit env.messageId ApprovalDecision.DENIED
        (some "Failed to add reactions.") ∈ (require s st req env).2.2 ∧
    Effect.registerPending env.messageId ∉ (require s st req env).2.2 ∧
    Effect.awaitDecision env.messageId ∉ (require s st req env).2.2 := by
  by_cases ha : env.addApproveOk = true
  · have hd : env.addDenyOk = false := by
      rcases hfail with h | h
      · rw [ha] at h
        cases h
      · exact h
    simp [require, hchan, hsend, ha, hd]
  · have ha' : env.addApproveOk = false := by
      simpa using ha
    simp [require, hchan, hsend, ha']

/-- C4: when no reaction resolves the future within the configured timeout
(`env.outcome = timeout`), `require` returns EXPIRED and finalizes the prompt
with the explanatory note citing the configured `timeout_seconds`; the
setting's source default is 600 seconds. -/
theorem C4_timeout_yields_expired (s : DiscordApprovalSettings)
    (st : CoordState) (req : ApprovalRequest) (env : RequireEnv)
    (hchan : env.channelOk = true) (hsend : env.sendOk = true)
    (ha : env.addApproveOk = true) (hd : env.addDenyOk = true)
    (hout : env.outcome = AwaitOutcome.timeout) :
    (require s st req env).2.1 = Except.ok ApprovalDecision.EXPIRED ∧
    Effect.finalizeEdit env.messageId ApprovalDecision.EXPIRED
        (some (timeoutReason s)) ∈ (require s st req env).2.2 ∧
    timeoutReason s =
      "No decision within " ++ toString s.timeout_seconds ++ "s timeout." ∧
    defaultTimeoutSeconds = 600 := by
  refine ⟨?_, ?_, rfl, rfl⟩
  · simp [require, hchan, hsend, ha, hd, hout]
  · simp [require, hchan, hsend, ha, hd, hout]

/-- C5: whenever `require` registers a pending entry (both reactions
attached), the message id is absent from the pending map once the call
returns — on the reaction-resolved path and on the timeout path alike,
because the pop runs in a `finally` block; and the pop is idempotent, so a
second removal of the same key is harmless. -/
theorem C5_pending_map_cleanup (s : DiscordApprovalSettings)
    (st : CoordState) (req : ApprovalRequest) (env : RequireEnv)
    (hchan : env.channelOk = true) (hsend : env.sendOk = true)
    (ha : env.addApproveOk = true) (hd : env.addDenyOk = true) :
    alistFind env.messageId ((require s st req env).1).pending = none ∧
    alistErase env.messageId (alistErase env.messageId st.pending) =
      alistErase env.messageId st.pending := by
  refine ⟨?_, alistErase_idem env.messageId st.pending⟩
  rcases hout : env.outcome with d | _
  · simp [require, hchan, hsend, ha, hd, hout, alistFind_erase]
  · simp [require, hchan, hsend, ha, hd, hout, alistFind_erase]

/-- Sample settings: one authorized reviewer (id 42), channel 1, default
timeout. -/
def wSettings : DiscordApprovalSettings :=
  { token := "tok", channel_id := 1, approver_ids := [42],
    timeout_seconds := 600 }

/-- Sample approval request. -/
def wRequest : ApprovalRequest :=
  { id := "ap-1", tool_name := "place_order", request_id := "rq-1",
    client_id := some "cl-1", arguments := [("symbol", "AAPL")] }

/-- Sample pending entry: message 99, future 7. -/
def wPendingEntry : PendingApproval :=
  { request := wRequest, futureId := 7, messageId := 99 }

/-- Coordinator state whose single pending entry has an already-resolved
future. -/
def wStateResolved : CoordState :=
  { pending := [(99, wPendingEntry)],
    futures := [(7, FutureState.resolved ApprovalDecision.APPROVED)] }

/-- Coordinator state whose single pending entry is still awaiting a
decision. -/
def wStateUnresolved : CoordState :=
  { pending := [(99, wPendingEntry)], futures := [(7, FutureState.unresolved)] }

/-- Empty coordinator state. -/
def wStateEmpty : CoordState := { pending := [], futures := [] }

/-- An authorized approve reaction on the pending message. -/
def wEventApprove : ReactionEvent :=
  { messageId := 99, channelId := 1, userId := 42, userIsBot := false,
    emoji := "✅" }

/-- An approve reaction from unauthorized user 99. -/
def wEventUnauthorized : ReactionEvent :=
  { messageId := 99, channelId := 1, userId := 99, userIsBot := false,
    emoji := "✅" }

/-- Environment in which the first `add_reaction` call fails. -/
def wEnvAddFail : RequireEnv :=
  { channelOk := true, sendOk := true, messageId := 99, futureId := 7,
    addApproveOk := false, addDenyOk := true,
    outcome := AwaitOutcome.timeout }

/-- Environment in which registration succeeds and the await times out. -/
def wEnvTimeout : RequireEnv :=
  { channelOk := true, sendOk := true, messageId := 99, futureId := 7,
    addApproveOk := true, addDenyOk := true,
    outcome := AwaitOutcome.timeout }

/-- C1 applied to a concrete resolved-future state: the handler leaves the
state untouched. -/
theorem C1_witness_concrete :
    (handleReactionAdd wSettings wStateResolved wEventApprove true).1 =
      wStateResolved :=
  ((C1_future_resolved_at_most_once wSettings wStateResolved wEventApprove
      true).2 wPendingEntry (FutureState.resolved ApprovalDecision.APPROVED)
    rfl rfl rfl).1

/-- C3 applied to a concrete unauthorized reaction: the state is unchanged. -/
theorem C3_witness_concrete :
    (handleReactionAdd wSettings wStateUnresolved wEventUnauthorized true).1 =
      wStateUnresolved :=
  (C3_unauthorized_reaction_noop wSettings wStateUnresolved
    wEventUnauthorized true (by decide) (by decide)).1

/-- C10 applied concretely: with a failing reaction attachment `require`
registers nothing. -/
theorem C10_witness_concrete :
    (require wSettings wStateEmpty wRequest wEnvAddFail).1 = wStateEmpty :=
  ((C10_registration_window wSettings wStateEmpty wEventApprove true wRequest
      wEnvAddFail).2.1 rfl rfl (Or.inl rfl)).1

/-- C2 applied concretely: a failing reaction attachment yields DENIED. -/
theorem C2_witness_concrete :
    (require wSettings wStateEmpty wRequest wEnvAddFail).2.1 =
      Except.ok ApprovalDecision.DENIED :=
  (C2_fail_closed_on_reaction_failure wSettings wStateEmpty wRequest
    wEnvAddFail rfl rfl (Or.inl rfl)).1

/-- C4 applied concretely: the timeout environment yields EXPIRED. -/
theorem C4_witness_concrete :
    (require wSettings wStateEmpty wRequest wEnvTimeout).2.1 =
      Except.ok ApprovalDecision.EXPIRED :=
  (C4_timeout_yields_expired wSettings wStateEmpty wRequest wEnvTimeout
    rfl rfl rfl rfl rfl).1

/-- C5 applied concretely: after the timed-out `require` the message id is
gone from the pending map. -/
theorem C5_witness_concrete :
    alistFind 99 ((require wSettings wStateEmpty wRequest wEnvTimeout).1).pending =
      none :=
  (C5_pending_map_cleanup wSettings wStateEmpty wRequest wEnvTimeout
    rfl rfl rfl rfl).1

/-- Helper: how `List.countP` changes when one position of the list is
overwritten. -/
theorem countP_set {α : Type} (p : α → Bool) (l : List α) :
    ∀ (i : Nat) (a b : α), l[i]? = some b →
      (l.set i a).countP p + (if p b then 1 else 0) =
        l.countP p + (if p a then 1 else 0) := by
  induction l with
  | nil =>
      intro i a b hb
      simp at hb
  | cons hd tl ih =>
      intro i a b hb
      cases i with
      | zero =>
          rw [List.getElem?_cons_zero] at hb
          cases hb
          simp only [List.set, List.countP_cons]
          omega
      | succ j =>
          rw [List.getElem?_cons_succ] at hb
          simp only [List.set, List.countP_cons]
          have h0 := ih j a b hb
          omega

/-- Overwriting a position with an element the predicate judges the same way
leaves the count unchanged. -/
theorem countP_set_same {α : Type} (p : α → Bool) (l : List α) (i : Nat)
    (a b : α) (hb : l[i]? = some b) (hpab : p a = p b) :
    (l.set i a).countP p = l.countP p := by
  have h0 := countP_set p l i a b hb
  rw [hpab] at h0
  omega

/-- Overwriting a non-satisfying element with a satisfying one increments the
count. -/
theorem countP_set_incr {α : Type} (p : α → Bool) (l : List α) (i : Nat)
    (a b : α) (hb : l[i]? = some b) (hpa : p a = true)
    (hpb : p b = false) : (l.set i a).countP p = l.countP p + 1 := by
  have h0 := countP_set p l i a b hb
  rw [hpa, hpb] at h0
  simp at h0
  omega

/-- A pointwise property survives overwriting one position with an element
that satisfies it. -/
theorem forall_mem_set {α : Type} {P : α → Prop} {l : List α} {i : Nat}
    {a : α} (hl : ∀ x ∈ l, P x) (ha : P a) : ∀ x ∈ l.set i a, P x := by
  intro x hx
  rcases List.mem_or_eq_of_mem_set hx with h | h
  · exact hl x h
  · exact h ▸ ha

/-- Inductive invariant of the race model: the edit log counts exactly the
handler tasks that dispatched their edit plus the timeout's expiry edit;
bookkeeping between `pc`, `edited`, the future and the waiter. -/
def RaceInv (st : RaceState) : Prop :=
  st.edits.length = countEdited st +
      (if st.waiterResult = some ApprovalDecision.EXPIRED then 1 else 0) ∧
  (st.waiterDone = false → st.waiterResult = none) ∧
  (∀ h ∈ st.handlers,
    (h.pc = 0 → h.edited = false) ∧ (h.pc = 1 → h.edited = true)) ∧
  (∀ d, st.future = FutureState.resolved d → 1 ≤ countEdited st) ∧
  (st.waiterDone = true →
    st.waiterResult = some ApprovalDecision.EXPIRED ∨
      ∃ d, st.future = FutureState.resolved d) ∧
  (st.future = FutureState.unresolved → countEdited st = countInFlight st) ∧
  (st.future = FutureState.unresolved → st.waiterResult = none) ∧
  (∀ d, st.future = FutureState.resolved d → d ≠ ApprovalDecision.EXPIRED)

theorem raceInv_init (flags : List Bool) : RaceInv (raceInit flags) := by
  have hce : countEdited (raceInit flags) = 0 := by
    simp [countEdited, raceInit, List.countP_eq_zero, List.mem_map]
  have hcf : countInFlight (raceInit flags) = 0 := by
    simp [countInFlight, raceInit, List.countP_eq_zero, List.mem_map]
  refine ⟨?_, fun _ => rfl, ?_, ?_, ?_, ?_, fun _ => rfl, ?_⟩
  · rw [hce]
    simp [raceInit]
  · intro h hmem
    simp only [raceInit, List.mem_map] at hmem
    obtain ⟨a, _, rfl⟩ := hmem
    exact ⟨fun _ => rfl, fun hpc => by simp at hpc⟩
  · intro d hres
    simp [raceInit] at hres
  · intro hw
    simp [raceInit] at hw
  · intro _
    rw [hce, hcf]
  · intro d hres
    simp [raceInit] at hres

theorem raceInv_step (st : RaceState) (e : RaceEvent) (hinv : RaceInv st) :
    RaceInv (raceStep st e) := by
  obtain ⟨h1, h2, h3, h4, h5, h6, h7, h8⟩ := hinv
  cases e with
  | handlerCheck i =>
      rcases hget : st.handlers[i]? with _ | h
      · have hstep : raceStep st (RaceEvent.handlerCheck i) = st := by
          simp [raceStep, hget]
        rw [hstep]
        exact ⟨h1, h2, h3, h4, h5, h6, h7, h8⟩
      · have hmem : h ∈ st.handlers := List.getElem?_mem hget
        by_cases hpc : h.pc = 0
        · have hed : h.edited = false := (h3 h hmem).1 hpc
          by_cases hpp : st.pendingPresent
          · by_cases hfd : st.future.done = true
            · have hstep : raceStep st (RaceEvent.handlerCheck i) =
                  { st with
                      handlers := st.handlers.set i { h with pc := 2 } } := by
                simp [raceStep, hget, hpc, hpp, hfd]
              rw [hstep]
              have hce : ((st.handlers.set i { h with pc := 2 }).countP
                  (fun x => x.edited)) =
                    st.handlers.countP (fun x => x.edited) :=
                countP_set_same _ st.handlers i _ h hget rfl
              have hcf : ((st.handlers.set i { h with pc := 2 }).countP
                  (fun x => x.pc == 1)) =
                    st.handlers.countP (fun x => x.pc == 1) :=
                countP_set_same _ st.handlers i _ h hget (by simp [hpc])
              refine ⟨?_, h2, ?_, ?_, h5, ?_, h7, h8⟩
              · simpa [countEdited, hce] using h1
              · exact forall_mem_set h3
                  ⟨fun hp => by simp at hp, fun hp => by simp at hp⟩
              · intro d hres
                simpa [countEdited, hce] using h4 d hres
              · intro hun
                simpa [countEdited, countInFlight, hce, hcf] using h6 hun
            · have hfut : st.future = FutureState.unresolved := by
                cases hf : st.future with
                | unresolved => rfl
                | resolved d0 => rw [hf] at hfd; simp [FutureState.done] at hfd
                | cancelled => rw [hf] at hfd; simp [FutureState.done] at hfd
              have hstep : raceStep st (RaceEvent.handlerCheck i) =
                  { st with
                      handlers :=
                        st.handlers.set i { h with pc := 1, edited := true }
                      edits := st.edits ++ [h.decision] } := by
                simp [raceStep, hget, hpc, hpp, hfd]
              rw [hstep]
              have hce : ((st.handlers.set i
                  { h with pc := 1, edited := true }).countP
                    (fun x => x.edited)) =
                    st.handlers.countP (fun x => x.edited) + 1 :=
                countP_set_incr _ st.handlers i _ h hget rfl (by simp [hed])
              have hcf : ((st.handlers.set i
                  { h with pc := 1, edited := true }).countP
                    (fun x => x.pc == 1)) =
                    st.handlers.countP (fun x => x.pc == 1) + 1 :=
                countP_set_incr _ st.handlers i _ h hget rfl (by simp [hpc])
              refine ⟨?_, h2, ?_, ?_, h5, ?_, h7, h8⟩
              · simp only [countEdited, hce, List.length_append,
                  List.length_cons, List.length_nil] at h1 ⊢
                omega
              · exact forall_mem_set h3 ⟨fun hp => by simp at hp, fun _ => rfl⟩
              · intro d hres
                rw [show ({ st with
                    handlers :=
                      st.handlers.set i { h with pc := 1, edited := true }
                    edits := st.edits ++ [h.decision] } :
                      RaceState).future = st.future from rfl, hfut] at hres
                simp at hres
              · intro _
                have h9 := h6 hfut
                simp only [countEdited, countInFlight] at h9
                simp only [countEdited, countInFlight, hce, hcf]
                omega
          · have hstep : raceStep st (RaceEvent.handlerCheck i) =
                { st with
                    handlers := st.handlers.set i { h with pc := 2 } } := by
              simp [raceStep, hget, hpc, hpp]
            rw [hstep]
            have hce : ((st.handlers.set i { h with pc := 2 }).countP
                (fun x => x.edited)) =
                  st.handlers.countP (fun x => x.edited) :=
              countP_set_same _ st.handlers i _ h hget rfl
            have hcf : ((st.handlers.set i { h with pc := 2 }).countP
                (fun x => x.pc == 1)) =
                  st.handlers.countP (fun x => x.pc == 1) :=
              countP_set_same _ st.handlers i _ h hget (by simp [hpc])
            refine ⟨?_, h2, ?_, ?_, h5, ?_, h7, h8⟩
            · simpa [countEdited, hce] using h1
            · exact forall_mem_set h3
                ⟨fun hp => by simp at hp, fun hp => by simp at hp⟩
            · intro d hres
              simpa [countEdited, hce] using h4 d hres
            · intro hun
              simpa [countEdited, countInFlight, hce, hcf] using h6 hun
        · have hstep : raceStep st (RaceEvent.handlerCheck i) = st := by
            simp [raceStep, hget, hpc]
          rw [hstep]
          exact ⟨h1, h2, h3, h4, h5, h6, h7, h8⟩
  | handlerResume i =>
      rcases hget : st.handlers[i]? with _ | h
      · have hstep : raceStep st (RaceEvent.handlerResume i) = st := by
          simp [raceStep, hget]
        rw [hstep]
        exact ⟨h1, h2, h3, h4, h5, h6, h7, h8⟩
      · have hmem : h ∈ st.handlers := List.getElem?_mem hget
        by_cases hpc : h.pc = 1
        · have hed : h.edited = true := (h3 h hmem).2 hpc
          cases hfut : st.future with
          | unresolved =>
              have hstep : raceStep st (RaceEvent.handlerResume i) =
                  { st with
                      handlers := st.handlers.set i { h with pc := 2 }
                      future := FutureState.resolved h.decision } := by
                simp [raceStep, hget, hpc, hfut]
              rw [hstep]
              have hce : ((st.handlers.set i { h with pc := 2 }).countP
                  (fun x => x.edited)) =
                    st.handlers.countP (fun x => x.edited) :=
                countP_set_same _ st.handlers i _ h hget rfl
              have hpos : 1 ≤ st.handlers.countP (fun x => x.edited) :=
                List.countP_pos_iff.mpr ⟨h, hmem, by simp [hed]⟩
              refine ⟨?_, h2, ?_, ?_, ?_, ?_, ?_, ?_⟩
              · simpa [countEdited, hce] using h1
              · exact forall_mem_set h3
                  ⟨fun hp => by simp at hp, fun hp => by simp at hp⟩
              · intro d _
                simpa [countEdited, hce] using hpos
              · intro _
                right
                exact ⟨h.decision, rfl⟩
              · intro hun
                simp at hun
              · intro hun
                simp at hun
              · intro d hres
                have hinj : FutureState.resolved h.decision =
                    FutureState.resolved d := hres
                injection hinj with hd
                rw [← hd]
                cases happ : h.approve <;>
                  simp [HandlerTask.decision, happ]
          | resolved d0 =>
              have hstep : raceStep st (RaceEvent.handlerResume i) =
                  { st with
                      handlers :=
                        st.handlers.set i
                          { h with pc := 2, errored := true } } := by
                simp [raceStep, hget, hpc, hfut]
              rw [hstep]
              have hce : ((st.handlers.set i
                  { h with pc := 2, errored := true }).countP
                    (fun x => x.edited)) =
                    st.handlers.countP (fun x => x.edited) :=
                countP_set_same _ st.handlers i _ h hget rfl
              refine ⟨?_, h2, ?_, ?_, h5, ?_, ?_, h8⟩
              · simpa [countEdited, hce] using h1
              · exact forall_mem_set h3
                  ⟨fun hp => by simp at hp, fun hp => by simp at hp⟩
              · intro d hres
                simpa [countEdited, hce] using h4 d hres
              · intro hun
                rw [show ({ st with
                    handlers :=
                      st.handlers.set i { h with pc := 2, errored := true } } :
                      RaceState).future = st.future from rfl, hfut] at hun
                simp at hun
              · intro hun
                rw [show ({ st with
                    handlers :=
                      st.handlers.set i { h with pc := 2, errored := true } } :
                      RaceState).future = st.future from rfl, hfut] at hun
                simp at hun
          | cancelled =>
              have hstep : raceStep st (RaceEvent.handlerResume i) =
                  { st with
                      handlers :=
                        st.handlers.set i
                          { h with pc := 2, errored := true } } := by
                simp [raceStep, hget, hpc, hfut]
              rw [hstep]
              have hce : ((st.handlers.set i
                  { h with pc := 2, errored := true }).countP
                    (fun x => x.edited)) =
                    st.handlers.countP (fun x => x.edited) :=
                countP_set_same _ st.handlers i _ h hget rfl
              refine ⟨?_, h2, ?_, ?_, h5, ?_, ?_, h8⟩
              · simpa [countEdited, hce] using h1
              · exact forall_mem_set h3
                  ⟨fun hp => by simp at hp, fun hp => by simp at hp⟩
              · intro d hres
                simpa [countEdited, hce] using h4 d hres
              · intro hun
                rw [show ({ st with
                    handlers :=
                      st.handlers.set i { h with pc := 2, errored := true } } :
                      RaceState).future = st.future from rfl, hfut] at hun
                simp at hun
              · intro hun
                rw [show ({ st with
                    handlers :=
                      st.handlers.set i { h with pc := 2, errored := true } } :
                      RaceState).future = st.future from rfl, hfut] at hun
                simp at hun
        · have hstep : raceStep st (RaceEvent.handlerResume i) = st := by
            simp [raceStep, hget, hpc]
          rw [hstep]
          exact ⟨h1, h2, h3, h4, h5, h6, h7, h8⟩
  | timeoutFire =>
      by_cases hg : st.waiterDone = false ∧ st.future = FutureState.unresolved
      · have hwr : st.waiterResult = none := h2 hg.1
        have hstep : raceStep st RaceEvent.timeoutFire =
            { st with
                future := FutureState.cancelled
                waiterDone := true
                waiterResult := some ApprovalDecision.EXPIRED
                pendingPresent := false
                edits := st.edits ++ [ApprovalDecision.EXPIRED] } := by
          simp only [raceStep]
          rw [if_pos hg]
        rw [hstep]
        refine ⟨?_, ?_, h3, ?_, ?_, ?_, ?_, ?_⟩
        · simp only [countEdited, hwr, List.length_append, List.length_cons,
            List.length_nil] at h1 ⊢
          simp only [reduceCtorEq, if_false, if_true] at h1 ⊢
          omega
        · intro hw
          simp at hw
        · intro d hres
          simp at hres
        · intro _
          left
          rfl
        · intro hun
          simp at hun
        · intro hun
          simp at hun
        · intro d hres
          simp at hres
      · have hstep : raceStep st RaceEvent.timeoutFire = st := by
          simp only [raceStep]
          rw [if_neg hg]
        rw [hstep]
        exact ⟨h1, h2, h3, h4, h5, h6, h7, h8⟩
  | waiterWake =>
      by_cases hw : st.waiterDone = false
      · cases hfut : st.future with
        | unresolved =>
            have hstep : raceStep st RaceEvent.waiterWake = st := by
              simp [raceStep, hw, hfut]
            rw [hstep]
            exact ⟨h1, h2, h3, h4, h5, h6, h7, h8⟩
        | resolved d0 =>
            have hne : d0 ≠ ApprovalDecision.EXPIRED := h8 d0 hfut
            have hwr : st.waiterResult = none := h2 hw
            have hstep : raceStep st RaceEvent.waiterWake =
                { st with
                    waiterDone := true
                    waiterResult := some d0
                    pendingPresent := false } := by
              simp [raceStep, hw, hfut]
            rw [hstep]
            refine ⟨?_, ?_, h3, h4, ?_, ?_, ?_, h8⟩
            · simp only [countEdited, hwr] at h1 ⊢
              simp only [reduceCtorEq, if_false, Option.some.injEq] at h1 ⊢
              rw [if_neg hne]
              simpa using h1
            · intro hwf
              simp at hwf
            · intro _
              right
              exact ⟨d0, hfut⟩
            · intro hun
              rw [show ({ st with
                  waiterDone := true
                  waiterResult := some d0
                  pendingPresent := false } : RaceState).future = st.future
                from rfl, hfut] at hun
              simp at hun
            · intro hun
              rw [show ({ st with
                  waiterDone := true
                  waiterResult := some d0
                  pendingPresent := false } : RaceState).future = st.future
                from rfl, hfut] at hun
              simp at hun
        | cancelled =>
            have hstep : raceStep st RaceEvent.waiterWake = st := by
              simp [raceStep, hw, hfut]
            rw [hstep]
            exact ⟨h1, h2, h3, h4, h5, h6, h7, h8⟩
      · have hstep : raceStep st RaceEvent.waiterWake = st := by
          simp [raceStep, hw]
        rw [hstep]
        exact ⟨h1, h2, h3, h4, h5, h6, h7, h8⟩

theorem raceInv_foldl (evs : List RaceEvent) :
    ∀ st : RaceState, RaceInv st → RaceInv (evs.foldl raceStep st) := by
  induction evs with
  | nil => exact fun st h => h
  | cons e rest ih =>
      intro st h
      exact ih (raceStep st e) (raceInv_step st e h)

theorem raceInv_run (flags : List Bool) (evs : List RaceEvent) :
    RaceInv (raceRun flags evs) :=
  raceInv_foldl evs (raceInit flags) (raceInv_init flags)

/-- A done future stays done, and a step from a done-future state never adds
an edit: both the handler's `done()` check and the timeout's guard see the
future settled. -/
theorem raceStep_done_frozen (st : RaceState) (e : RaceEvent)
    (hdone : st.future.done = true) :
    (raceStep st e).edits = st.edits ∧
      (raceStep st e).future.done = true := by
  cases e with
  | handlerCheck i =>
      rcases hget : st.handlers[i]? with _ | h
      · simp [raceStep, hget, hdone]
      · by_cases hpc : h.pc = 0
        · by_cases hpp : st.pendingPresent
          · simp [raceStep, hget, hpc, hpp, hdone]
          · simp [raceStep, hget, hpc, hpp, hdone]
        · simp [raceStep, hget, hpc, hdone]
  | handlerResume i =>
      rcases hget : st.handlers[i]? with _ | h
      · simp [raceStep, hget, hdone]
      · by_cases hpc : h.pc = 1
        · cases hfut : st.future with
          | unresolved => rw [hfut] at hdone; simp [FutureState.done] at hdone
          | resolved d0 => simp [raceStep, hget, hpc, hfut, FutureState.done]
          | cancelled => simp [raceStep, hget, hpc, hfut, FutureState.done]
        · simp [raceStep, hget, hpc, hdone]
  | timeoutFire =>
      have hg : ¬ (st.waiterDone = false ∧
          st.future = FutureState.unresolved) := by
        rintro ⟨_, hfut⟩
        rw [hfut] at hdone
        simp [FutureState.done] at hdone
      have hstep : raceStep st RaceEvent.timeoutFire = st := by
        simp only [raceStep]
        rw [if_neg hg]
      rw [hstep]
      exact ⟨rfl, hdone⟩
  | waiterWake =>
      by_cases hw : st.waiterDone = false
      · cases hfut : st.future with
        | unresolved => rw [hfut] at hdone; simp [FutureState.done] at hdone
        | resolved d0 =>
            simp [raceStep, hw, hfut, FutureState.done]
        | cancelled => simp [raceStep, hw, hfut, FutureState.done]
      · simp [raceStep, hw, hdone]

/-- Once the future is done, no suffix of the schedule ever edits the prompt
again. -/
theorem raceFoldl_done_frozen (rest : List RaceEvent) :
    ∀ st : RaceState, st.future.done = true →
      (rest.foldl raceStep st).edits = st.edits := by
  induction rest with
  | nil => exact fun _ _ => rfl
  | cons e tail ih =>
      intro st hdone
      obtain ⟨he, hd⟩ := raceStep_done_frozen st e hdone
      simp only [List.foldl_cons]
      rw [ih (raceStep st e) hd, he]

/-- C6 counterexample: the claim says the prompt message is edited exactly
once regardless of which resolution path triggers, even when paths race.
Three complete runs refute it.  (1) One authorized reaction: the handler
passes `done()` and dispatches its edit, the timeout fires while that edit is
in flight, the handler resumes into `InvalidStateError` — two edits.
(2) Two authorized reactions and no timeout: both handler tasks pass the
`done()` check (it and the awaited edit sit outside the lock) before either
records a result — two edits, the second handler erroring.  (3) The same two
reactions with the timeout racing as well — three edits. -/
theorem C6_counterexample_double_edit :
    (raceComplete (raceRun [true] [RaceEvent.handlerCheck 0,
        RaceEvent.timeoutFire, RaceEvent.handlerResume 0]) ∧
      (raceRun [true] [RaceEvent.handlerCheck 0, RaceEvent.timeoutFire,
          RaceEvent.handlerResume 0]).edits =
        [ApprovalDecision.APPROVED, ApprovalDecision.EXPIRED]) ∧
    (raceComplete (raceRun [true, true] [RaceEvent.handlerCheck 0,
        RaceEvent.handlerCheck 1, RaceEvent.handlerResume 0,
        RaceEvent.handlerResume 1, RaceEvent.waiterWake]) ∧
      (raceRun [true, true] [RaceEvent.handlerCheck 0,
          RaceEvent.handlerCheck 1, RaceEvent.handlerResume 0,
          RaceEvent.handlerResume 1, RaceEvent.waiterWake]).edits =
        [ApprovalDecision.APPROVED, ApprovalDecision.APPROVED]) ∧
    (raceComplete (raceRun [true, true] [RaceEvent.handlerCheck 0,
        RaceEvent.handlerCheck 1, RaceEvent.timeoutFire,
        RaceEvent.handlerResume 0, RaceEvent.handlerResume 1]) ∧
      (raceRun [true, true] [RaceEvent.handlerCheck 0,
          RaceEvent.handlerCheck 1, RaceEvent.timeoutFire,
          RaceEvent.handlerResume 0, RaceEvent.handlerResume 1]).edits =
        [ApprovalDecision.APPROVED, ApprovalDecision.APPROVED,
          ApprovalDecision.EXPIRED]) := by
  decide

/-- C6 (amended): for any number of delivered authorized reactions and any
schedule, (1) a complete run edits the prompt at least once; (2) while the
future is unresolved, the number of edits dispatched equals the number of
handler finalize edits currently in flight — so the message is edited exactly
once when the future is settled with a single attempt in flight, and k racing
attempts (each passing the `done()` check while an earlier attempt's edit was
in flight) produce k edits, plus one more if the timeout is what settles it;
and (3) once the future is done, no later event ever edits the prompt
again. -/
theorem C6_amended_edit_accounting (flags : List Bool)
    (evs : List RaceEvent) :
    (raceComplete (raceRun flags evs) →
      1 ≤ (raceRun flags evs).edits.length) ∧
    ((raceRun flags evs).future = FutureState.unresolved →
      (raceRun flags evs).edits.length = countInFlight (raceRun flags evs)) ∧
    ((raceRun flags evs).future.done = true → ∀ rest : List RaceEvent,
      (raceRun flags (evs ++ rest)).edits = (raceRun flags evs).edits) := by
  obtain ⟨h1, h2, h3, h4, h5, h6, h7, h8⟩ := raceInv_run flags evs
  refine ⟨?_, ?_, ?_⟩
  · rintro ⟨_, hwd⟩
    rcases h5 hwd with hl | ⟨d, hd⟩
    · rw [h1, hl]
      simp
    · have := h4 d hd
      rw [h1]
      omega
  · intro hun
    rw [h1, h7 hun, h6 hun]
    simp
  · intro hdone rest
    show ((evs ++ rest).foldl raceStep (raceInit flags)).edits = _
    rw [List.foldl_append]
    exact raceFoldl_done_frozen rest (raceRun flags evs) hdone

/-- C6 (amended) applied to the race-free schedule in which a single handler
resolves the future and the waiter then wakes: at least one edit occurs. -/
theorem C6_amended_witness_concrete :
    1 ≤ (raceRun [true] [RaceEvent.handlerCheck 0, RaceEvent.handlerResume 0,
        RaceEvent.waiterWake]).edits.length :=
  (C6_amended_edit_accounting [true] [RaceEvent.handlerCheck 0,
      RaceEvent.handlerResume 0, RaceEvent.waiterWake]).1 (by decide)

/-- C7: once `ApprovalManager.require` has returned, the approval wrapper
branches on the decision: APPROVED invokes the wrapped function with the
bound arguments (contexts coerced in place) and returns its result; DENIED
emits a caller-visible warning and raises `PermissionError` with a message
naming the tool; EXPIRED emits the warning and raises `TimeoutError` with a
message naming the tool. -/
theorem C7_wrapper_decision_branching (toolName : String)
    (ctxParams : List String) (bound : List (String × PyValue))
    (env : WrapperEnv) (ctx : CtxInfo)
    (h : resolveContext ctxParams bound = some ctx) :
    (env.decision = ApprovalDecision.APPROVED →
      (wrapperCall toolName ctxParams bound env).1 =
        Except.ok env.callResult ∧
      WEffect.callWrapped (convertBound ctxParams bound) ∈
        (wrapperCall toolName ctxParams bound env).2) ∧
    (env.decision = ApprovalDecision.DENIED →
      (wrapperCall toolName ctxParams bound env).1 =
        Except.error (PyError.permissionError (deniedMessage toolName)) ∧
      WEffect.warning (deniedMessage toolName) ∈
        (wrapperCall toolName ctxParams bound env).2 ∧
      deniedMessage toolName =
        "Write operation for tool '" ++ toolName ++ "' denied by reviewer.") ∧
    (env.decision = ApprovalDecision.EXPIRED →
      (wrapperCall toolName ctxParams bound env).1 =
        Except.error (PyError.timeoutError (expiredMessage toolName)) ∧
      WEffect.warning (expiredMessage toolName) ∈
        (wrapperCall toolName ctxParams bound env).2 ∧
      expiredMessage toolName =
        "Approval request for tool '" ++ toolName ++ "' expired.") := by
  refine ⟨?_, ?_, ?_⟩ <;> intro hd <;>
    simp [wrapperCall, h, hd, deniedMessage, expiredMessage]

/-- Context carried by the sample invocation. -/
def wCtxInfo : CtxInfo :=
  { request_id := "rq-1", client_id := some "cl-1", hasProgressToken := true }

/-- Sample bound arguments with a proper `SchwabContext` value. -/
def wBound : List (String × PyValue) :=
  [("ctx", PyValue.schwabCtx wCtxInfo), ("symbol", PyValue.plain "AAPL")]

/-- Sample bound arguments in which the context parameter received a
non-context value (the repr of the integer 5). -/
def wBoundWrongCtx : List (String × PyValue) :=
  [("ctx", PyValue.plain "5"), ("symbol", PyValue.plain "AAPL")]

/-- Sample wrapper environment: the reviewer denies. -/
def wWrapEnv : WrapperEnv :=
  { approvalId := "ap-1", decision := ApprovalDecision.DENIED,
    callResult := "ok" }

/-- C7 applied concretely: a denied decision raises `PermissionError` with
the message naming the tool. -/
theorem C7_witness_concrete :
    (wrapperCall "place_order" ["ctx"] wBound wWrapEnv).1 =
      Except.error (PyError.permissionError (deniedMessage "place_order")) :=
  ((C7_wrapper_decision_branching "place_order" ["ctx"] wBound wWrapEnv
      wCtxInfo rfl).2.1 rfl).1

/-- C8: with the write-enabled flag false, every write-flagged tool is
excluded from the exposed tool set produced by `register_tools` (so it is
unreachable and can never interact with any ApprovalManager), and the
exposed set does not depend on which approval manager is configured. -/
theorem C8_write_gating (cfg : ServerConfig) (tools : List ToolDef) :
    (cfg.allow_write = false →
      ∀ t ∈ registerTools cfg tools, t.write = false) ∧
    (∀ m : ApprovalManagerKind,
      registerTools { cfg with approval_manager := m } tools =
        registerTools cfg tools) := by
  constructor
  · intro hw t ht
    simp [registerTools, hw] at ht
    exact ht.2
  · intro m
    rfl

/-- Tool list with one read-only and one write tool. -/
def wTools : List ToolDef :=
  [{ name := "get_quotes", write := false },
    { name := "place_order", write := true }]

/-- Server configuration with writes disabled. -/
def wCfgNoWrite : ServerConfig :=
  { approval_manager := ApprovalManagerKind.noOp, allow_write := false }

/-- C8 applied concretely: the write tool is not exposed, and swapping the
configured manager leaves the exposed set unchanged. -/
theorem C8_witness_concrete :
    ToolDef.mk "place_order" true ∉ registerTools wCfgNoWrite wTools ∧
    registerTools
        { wCfgNoWrite with
            approval_manager := ApprovalManagerKind.discordManager wSettings }
        wTools =
      registerTools wCfgNoWrite wTools := by
  constructor
  · intro hmem
    have hw := (C8_write_gating wCfgNoWrite wTools).1 rfl
      (ToolDef.mk "place_order" true) hmem
    simp at hw
  · exact (C8_write_gating wCfgNoWrite wTools).2
      (ApprovalManagerKind.discordManager wSettings)

/-- Whether a wrapper outcome is a raised `TypeError`. -/
def resultIsTypeError : Except PyError String → Bool
  | Except.error (PyError.typeError _) => true
  | _ => false

/-- C9 counterexample: at call time a wrong-typed context value does not
produce a type error.  The resolution loop silently skips the non-context
value, so the wrapper raises `RuntimeError` ("missing SchwabContext"), not
`TypeError`; no approval work happens (the effect list is empty). -/
theorem C9_counterexample_runtime_not_type_error :
    (wrapperCall "place_order" ["ctx"] wBoundWrongCtx wWrapEnv).1 =
      Except.error (PyError.runtimeError
        "Write tool 'place_order' missing SchwabContext during invocation.") ∧
    resultIsTypeError
        (wrapperCall "place_order" ["ctx"] wBoundWrongCtx wWrapEnv).1 =
      false ∧
    (wrapperCall "place_order" ["ctx"] wBoundWrongCtx wWrapEnv).2 = [] :=
  ⟨rfl, rfl, rfl⟩

/-- C9 (amended): when the context argument cannot be resolved at call time
(for example a wrong-typed value was passed for every context parameter),
the wrapper fails before any approval work begins — no ApprovalRequest is
built, no progress is emitted and `require` is never called — but the error
raised is a `RuntimeError` naming the tool, not a `TypeError`; the
`TypeError` for a wrong-typed context lives in the non-approval context
coercion wrapper, which for write tools runs only after approval. -/
theorem C9_amended_runtime_error_before_approval (toolName : String)
    (ctxParams : List String) (bound : List (String × PyValue))
    (env : WrapperEnv)
    (h : resolveContext ctxParams bound = none) :
    (wrapperCall toolName ctxParams bound env).1 =
      Except.error (PyError.runtimeError
        ("Write tool '" ++ toolName ++
          "' missing SchwabContext during invocation.")) ∧
    (wrapperCall toolName ctxParams bound env).2 = [] := by
  simp [wrapperCall, h]

/-- C9 (amended) applied concretely: no effects are emitted on the
unresolved-context path. -/
theorem C9_amended_witness_concrete :
    (wrapperCall "place_order" ["ctx"] wBoundWrongCtx wWrapEnv).2 = [] :=
  (C9_amended_runtime_error_before_approval "place_order" ["ctx"]
    wBoundWrongCtx wWrapEnv rfl).2
